import Mathlib

/-
Shallow embedding of the multi-wallet session manager of the
xdc-goat-mcp-server repository, following
src/evm-mcp-server/src/server/xdcmcpserveradvRef3.ts (the canonical
instance; xdcmcpserveradvRef2.ts and src/core/tools-xdc-goat.ts carry
near-identical copies of the same logic).
-/

namespace XdcGoat

/-- Embedding of the `Wallet` interface (xdcmcpserveradvRef3.ts, lines 48-57). -/
structure Wallet where
  id : String
  name : String
  role : String
  provider : String
  privateKey : String
  publicAddress : String
  isActive : Bool
  description : String
deriving DecidableEq, Repr

/-- JS `Map<string, Wallet>.set(w.id, w)` semantics on an insertion-ordered
association list: replace in place when the key exists, append otherwise.
The code always keys the map by the stored wallet's own `id`. -/
def mapSet (m : List Wallet) (w : Wallet) : List Wallet :=
  if m.any (fun x => x.id == w.id) then
    m.map (fun x => if x.id == w.id then w else x)
  else m ++ [w]

/-- JS `Map.get` (first entry with the key; keys are unique in a real Map). -/
def mapGet (m : List Wallet) (id : String) : Option Wallet :=
  m.find? (fun x => x.id == id)

/-- JS `Map.has`. -/
def mapHas (m : List Wallet) (id : String) : Bool :=
  (mapGet m id).isSome

/-- State of `WalletConfigManager`: the wallet map, `currentWallet`, and
`lastActiveWalletId` (lines 120-124). -/
structure ManagerState where
  wallets : List Wallet
  currentWallet : Option Wallet
  lastActiveWalletId : Option String
deriving DecidableEq, Repr

/-- One entry of the fixed `configs` array in `loadWallets` (lines 139-155). -/
structure SlotConfig where
  env : String
  id : String
  name : String
  role : String
  provider : String
deriving DecidableEq, Repr

/-- The fixed, ordered list of eight configuration slots (lines 139-155). -/
def walletConfigs : List SlotConfig := [
  ⟨"CAT_MM_SELLER_WALLET_PRIVATE_KEY", "catmm_seller", "MetaMask Seller", "seller", "metamask"⟩,
  ⟨"CAT_MM_BUYER_WALLET_PRIVATE_KEY", "catmm_buyer", "MetaMask Buyer", "buyer", "metamask"⟩,
  ⟨"CAT_MM_FINANCIER_WALLET_PRIVATE_KEY", "catmm_financier", "MetaMask Financier", "financier", "metamask"⟩,
  ⟨"CM_SELLER_WALLET_PRIVATE_KEY", "cm_seller", "Crossmint Seller", "seller", "crossmint"⟩,
  ⟨"CM_BUYER_WALLET_PRIVATE_KEY", "cm_buyer", "Crossmint Buyer", "buyer", "crossmint"⟩,
  ⟨"CVC_SELLER_WALLET_PRIVATE_KEY", "cvc_seller", "Civic Seller", "seller", "civic"⟩,
  ⟨"CVC_BUYER_WALLET_PRIVATE_KEY", "cvc_buyer", "Civic Buyer", "buyer", "civic"⟩,
  ⟨"WALLET_PRIVATE_KEY", "legacy_main", "Legacy Main Wallet", "legacy", "legacy"⟩]

/-- Character class `[a-fA-F0-9]` of the private-key regex. -/
def isHexChar (c : Char) : Bool :=
  ('0' ≤ c && c ≤ '9') || ('a' ≤ c && c ≤ 'f') || ('A' ≤ c && c ≤ 'F')

/-- The regex test on line 164: `/^0x[a-fA-F0-9]{64}$/.test(pk)` — the
characters `0`, `x`, then exactly 64 characters of the hex class. -/
def matchesKeyPattern (pk : String) : Bool :=
  match pk.toList with
  | '0' :: 'x' :: rest => rest.length == 64 && rest.all isHexChar
  | _ => false

/-- The full guard on line 164, `pk && pk !== '0x' && regex.test(pk)`:
truthiness of `pk` rules out the empty string, then the placeholder value
`'0x'` is rejected, then the regex is applied. -/
def isUsableKey (pk : String) : Bool :=
  pk != "" && pk != "0x" && matchesKeyPattern pk

/-- Body of the `configs.forEach` loop in `loadWallets` (lines 160-189) for a
single slot.  `env` is the configuration source (`process.env`); `derive` is
the external `privateKeyToAccount` collaborator mapping a secret to its public
address, with `none` standing for a thrown error (caught and skipped on lines
183-185). -/
def loadSlot (env : String → Option String) (derive : String → Option String)
    (c : SlotConfig) : Option Wallet :=
  match env c.env with
  | none => none
  | some pk =>
    if isUsableKey pk then
      match derive pk with
      | some addr =>
        some { id := c.id, name := c.name, role := c.role, provider := c.provider,
               privateKey := pk, publicAddress := addr, isActive := false,
               description := c.name ++ " wallet" }
      | none => none
    else none

/-- The `loadedWallets` array accumulated by the forEach loop, in load order. -/
def loadedWallets (env derive : String → Option String) : List Wallet :=
  walletConfigs.filterMap (loadSlot env derive)

/-- Default selection after the load loop (lines 191-208): the priority id
`catmm_seller` first, else the first seller (`sellers[0]`) else the first
loaded wallet (`loadedWallets[0]`), else none. -/
def defaultSelection (loaded : List Wallet) : Option Wallet :=
  match loaded.find? (fun w => w.id == "catmm_seller") with
  | some w => some w
  | none => ((loaded.filter (fun w => w.role == "seller")).head?).orElse
      (fun _ => loaded.head?)

/-- `WalletConfigManager.loadWallets` (lines 137-218): populate the map via
`Map.set` per admitted slot, then run default selection; in every branch of the
source, `lastActiveWalletId` is set to the selected wallet's id (or stays
null). -/
def loadWallets (env derive : String → Option String) : ManagerState :=
  { wallets := (loadedWallets env derive).foldl mapSet [],
    currentWallet := defaultSelection (loadedWallets env derive),
    lastActiveWalletId := (defaultSelection (loadedWallets env derive)).map Wallet.id }

/-- `switchWallet(id)` (lines 220-228): look the id up in the map; on a miss
return false and change nothing; on a hit set both `currentWallet` and
`lastActiveWalletId` and return true. -/
def switchWallet (st : ManagerState) (id : String) : ManagerState × Bool :=
  match mapGet st.wallets id with
  | none => (st, false)
  | some w => ({ st with currentWallet := some w, lastActiveWalletId := some id }, true)

/-- `getCurrentWallet()` (lines 230-232). -/
def getCurrentWallet (st : ManagerState) : Option Wallet :=
  st.currentWallet

/-- `getWalletsByRole(role)` (lines 234-236): map values in insertion order,
filtered by role. -/
def getWalletsByRole (st : ManagerState) (role : String) : List Wallet :=
  st.wallets.filter (fun w => w.role == role)

/-- `getWalletsByProvider(provider)` (lines 238-240). -/
def getWalletsByProvider (st : ManagerState) (provider : String) : List Wallet :=
  st.wallets.filter (fun w => w.provider == provider)

/-- `getWalletByRoleAndProvider(role, provider)` (lines 242-244): first match
in insertion order, or none. -/
def getWalletByRoleAndProvider (st : ManagerState) (role provider : String) : Option Wallet :=
  st.wallets.find? (fun w => w.role == role && w.provider == provider)

/-- `getAllWallets()` (lines 246-248). -/
def getAllWallets (st : ManagerState) : List Wallet :=
  st.wallets

/-- `restoreLastActiveWallet()` (lines 251-261): if `lastActiveWalletId` is
truthy (non-null and non-empty) and present in the map, set `currentWallet` to
that wallet and return true; otherwise return false and change nothing.  The
source does not check whether a wallet is already current. -/
def restoreLastActiveWallet (st : ManagerState) : ManagerState × Bool :=
  match st.lastActiveWalletId with
  | some lid =>
    if lid != "" && mapHas st.wallets lid then
      match mapGet st.wallets lid with
      | some w => ({ st with currentWallet := some w }, true)
      | none => (st, false)
    else (st, false)
  | none => (st, false)

/-- The module-level synchronizer globals `goatTools` and
`goatToolsLastWalletId` (lines 266-267); `τ` is the opaque type of the
externally constructed tool bundle. -/
structure GoatState (τ : Type) where
  goatTools : Option τ
  goatToolsLastWalletId : Option String
deriving DecidableEq, Repr

/-- Combined process state: the wallet manager singleton plus the synchronizer
globals. -/
structure World (τ : Type) where
  mgr : ManagerState
  gs : GoatState τ
deriving DecidableEq, Repr

/-- Embeds `initializeGoatTools(forceReinit)` (lines 306-430).  `build` is the
external tool-construction collaborator (`getOnChainTools` over a wallet
client created from the current wallet's private key); `none` models a thrown
construction error (caught on lines 424-429).  The trailing `Nat` counts how
many times `build` was invoked during the call.  The wallet-manager state is
read but never written. -/
def initGoatTools {τ : Type} (build : String → Option τ) (forceReinit : Bool)
    (w : World τ) : World τ × Bool × Nat :=
  match getCurrentWallet w.mgr with
  | none => ({ w with gs := ⟨none, none⟩ }, false, 0)
  | some cw =>
    if !forceReinit && w.gs.goatTools.isSome && w.gs.goatToolsLastWalletId == some cw.id then
      (w, true, 0)
    else
      match build cw.privateKey with
      | some tools => ({ w with gs := ⟨some tools, some cw.id⟩ }, true, 1)
      | none => ({ w with gs := ⟨none, none⟩ }, false, 1)

/-- `ensureGoatToolsForCurrentWallet()` (lines 433-445): no current wallet
gives false; a missing or mismatched binding forces a rebuild; a matching live
binding is a no-op returning true. -/
def ensureGoatToolsForCurrentWallet {τ : Type} (build : String → Option τ)
    (w : World τ) : World τ × Bool × Nat :=
  match getCurrentWallet w.mgr with
  | none => (w, false, 0)
  | some cw =>
    if w.gs.goatTools.isNone || w.gs.goatToolsLastWalletId != some cw.id then
      initGoatTools build true w
    else (w, true, 0)

/-- Outcome of a switch-to-role tool handler: the structured error payload
listing all wallets (lines 471-487), the caught throw on failed switch (lines
491-493), or the success payload carrying the selected wallet, whether the
exact requested provider was honored (the message on line 506 compares
`target.provider !== provider`), and whether the forced GOAT rebuild
succeeded. -/
inductive SwitchResult where
  | notFound (available : List Wallet)
  | switchThrew (id : String)
  | ok (wallet : Wallet) (providerHonored : Bool) (goatToolsReinitialized : Bool)
deriving DecidableEq, Repr

/-- The provider values admitted by the `z.enum` schema of the switch tools. -/
def providerChoices : List String := ["metamask", "crossmint", "civic"]

/-- The provider `if`/`else if` chain of the switch handlers (lines 456-462):
an exact (role, provider) lookup for each recognized provider value. -/
def exactProviderLookup (st : ManagerState) (role provider : String) : Option Wallet :=
  if provider == "metamask" then getWalletByRoleAndProvider st role "metamask"
  else if provider == "crossmint" then getWalletByRoleAndProvider st role "crossmint"
  else if provider == "civic" then getWalletByRoleAndProvider st role "civic"
  else none

/-- The `target` variable of the switch handlers after the fallback on lines
465-469: the exact match if any, else the first wallet of the role. -/
def switchTarget (st : ManagerState) (role provider : String) : Option Wallet :=
  match exactProviderLookup st role provider with
  | some t => some t
  | none => (getWalletsByRole st role).head?

/-- Common body of the `switch_to_seller` (lines 448-527) and
`switch_to_buyer` (lines 529-608) handlers, which differ only in the role
string: compute the target, return the structured not-found payload when there
is none, otherwise commit the switch and force a GOAT rebuild.  The trailing
`Nat` counts `build` invocations. -/
def switchToRole {τ : Type} (build : String → Option τ) (role provider : String)
    (w : World τ) : World τ × SwitchResult × Nat :=
  match switchTarget w.mgr role provider with
  | none => (w, .notFound (getAllWallets w.mgr), 0)
  | some t =>
    match switchWallet w.mgr t.id with
    | (_, false) => (w, .switchThrew t.id, 0)
    | (mgr1, true) =>
      ((initGoatTools build true { mgr := mgr1, gs := w.gs }).1,
        .ok t (t.provider == provider)
          (initGoatTools build true { mgr := mgr1, gs := w.gs }).2.1,
        (initGoatTools build true { mgr := mgr1, gs := w.gs }).2.2)

/-- Gate outcome of a dispatcher operation prelude: either the structured
"No active wallet" early return or permission to proceed with the current
wallet. -/
inductive OpGate where
  | noActiveWallet
  | proceed (wallet : Wallet)
deriving DecidableEq, Repr

/-- The restoration attempt opening each dispatcher operation (for example
lines 1324-1326): `if (!walletManager.getCurrentWallet())
walletManager.restoreLastActiveWallet()`. -/
def restoreIfNeeded (st : ManagerState) : ManagerState :=
  if (getCurrentWallet st).isNone then (restoreLastActiveWallet st).1 else st

/-- The prelude shared by dispatcher operations such as `transfer_erc6960`
(lines 1322-1339) and `get_current_wallet` (lines 611-629): when no wallet is
current, first attempt `restoreLastActiveWallet`; if a wallet is current
afterwards proceed with it, otherwise take the structured no-active-wallet
return. -/
def requireActiveWallet (st : ManagerState) : ManagerState × OpGate :=
  match getCurrentWallet (restoreIfNeeded st) with
  | none => (restoreIfNeeded st, .noActiveWallet)
  | some cw => (restoreIfNeeded st, .proceed cw)

/-- Wallet-manager states reachable in a process run: produced by
`loadWallets` at construction and closed under the two mutating operations. -/
inductive Reachable : ManagerState → Prop where
  | load (env derive : String → Option String) : Reachable (loadWallets env derive)
  | switch (st : ManagerState) (id : String) :
      Reachable st → Reachable (switchWallet st id).1
  | restore (st : ManagerState) :
      Reachable st → Reachable (restoreLastActiveWallet st).1

/-- Registries with pairwise-distinct wallet ids (the JS `Map` keeps keys
unique; every registry this program builds satisfies it). -/
def IdNodup (ws : List Wallet) : Prop :=
  (ws.map Wallet.id).Nodup

/-- A 64-hex-digit key that passes the load-time validation rule. -/
def sampleKey : String := "0x".pushn 'a' 64

/-- A configuration exposing exactly one valid slot (the Crossmint seller). -/
def sampleEnv : String → Option String :=
  fun s => if s == "CM_SELLER_WALLET_PRIVATE_KEY" then some sampleKey else none

/-- An address-derivation collaborator that always succeeds. -/
def sampleDerive : String → Option String :=
  fun _ => some "0xSELLER"

/-- The manager state right after startup under `sampleEnv`. -/
def sampleState : ManagerState := loadWallets sampleEnv sampleDerive

/-- The single wallet admitted under `sampleEnv`. -/
def sampleWallet : Wallet :=
  { id := "cm_seller", name := "Crossmint Seller", role := "seller", provider := "crossmint",
    privateKey := sampleKey, publicAddress := "0xSELLER", isActive := false,
    description := "Crossmint Seller wallet" }

theorem sampleState_eq :
    sampleState = ⟨[sampleWallet], some sampleWallet, some "cm_seller"⟩ := by
  decide

theorem mapGet_id {m : List Wallet} {id : String} {w : Wallet}
    (h : mapGet m id = some w) : w.id = id := by
  have := List.find?_some h
  simpa using this

theorem mapGet_mem {m : List Wallet} {id : String} {w : Wallet}
    (h : mapGet m id = some w) : w ∈ m :=
  List.mem_of_find?_eq_some h

theorem mapGet_of_mem {m : List Wallet} {w : Wallet}
    (hnd : IdNodup m) (hm : w ∈ m) : mapGet m w.id = some w := by
  induction m with
  | nil => cases hm
  | cons x xs ih =>
    have hnd2 : (x.id ∉ xs.map Wallet.id) ∧ IdNodup xs := by
      simpa [IdNodup] using hnd
    rcases List.mem_cons.mp hm with hx | hxs
    · subst hx
      rw [mapGet]
      simp [List.find?]
    · have hne : (x.id == w.id) = false := by
        rw [beq_eq_false_iff_ne]
        intro he
        exact hnd2.1 (he ▸ List.mem_map_of_mem Wallet.id hxs)
      rw [mapGet]
      simp only [List.find?, hne]
      exact ih hnd2.2 hxs

theorem foldl_mapSet_eq (l : List Wallet) : ∀ acc : List Wallet,
    ((acc ++ l).map Wallet.id).Nodup → l.foldl mapSet acc = acc ++ l := by
  induction l with
  | nil => intro acc _; simp
  | cons w l ih =>
    intro acc h
    have hnotin : w.id ∉ acc.map Wallet.id := by
      intro hmem
      have h2 : ((acc.map Wallet.id) ++ (w.id :: l.map Wallet.id)).Nodup := by
        simpa using h
      exact (List.disjoint_of_nodup_append h2) hmem (by simp)
    have hany : acc.any (fun x => x.id == w.id) = false := by
      rw [List.any_eq_false]
      intro x hx
      simp only [beq_iff_eq]
      intro he
      exact hnotin (he ▸ List.mem_map_of_mem Wallet.id hx)
    have hset : mapSet acc w = acc ++ [w] := by
      simp [mapSet, hany]
    have hli : acc ++ w :: l = (acc ++ [w]) ++ l := by simp
    have h3 : (((acc ++ [w]) ++ l).map Wallet.id).Nodup := by
      rw [← hli]; exact h
    calc (w :: l).foldl mapSet acc = l.foldl mapSet (mapSet acc w) := rfl
      _ = l.foldl mapSet (acc ++ [w]) := by rw [hset]
      _ = (acc ++ [w]) ++ l := ih (acc ++ [w]) h3
      _ = acc ++ w :: l := by simp

theorem loadSlot_id {env derive : String → Option String} {c : SlotConfig} {w : Wallet}
    (h : loadSlot env derive c = some w) : w.id = c.id := by
  unfold loadSlot at h
  split at h
  · cases h
  · split at h
    · split at h
      · cases h; rfl
      · cases h
    · cases h

theorem loadSlot_ids_sublist (env derive : String → Option String) :
    ∀ cs : List SlotConfig,
      ((cs.filterMap (loadSlot env derive)).map Wallet.id).Sublist
        (cs.map SlotConfig.id) := by
  intro cs
  induction cs with
  | nil => simp
  | cons c cs ih =>
    cases h : loadSlot env derive c with
    | none =>
      rw [List.filterMap_cons_none h, List.map_cons]
      exact ih.cons c.id
    | some w =>
      rw [List.filterMap_cons_some h, List.map_cons, List.map_cons, loadSlot_id h]
      exact ih.cons₂ c.id

set_option maxRecDepth 8000 in
theorem walletConfigs_ids_nodup : (walletConfigs.map SlotConfig.id).Nodup := by
  decide

theorem loadedWallets_id_nodup (env derive : String → Option String) :
    ((loadedWallets env derive).map Wallet.id).Nodup :=
  List.Nodup.sublist (loadSlot_ids_sublist env derive walletConfigs) walletConfigs_ids_nodup

theorem loadWallets_wallets_eq (env derive : String → Option String) :
    (loadWallets env derive).wallets = loadedWallets env derive := by
  show (loadedWallets env derive).foldl mapSet [] = loadedWallets env derive
  have h := foldl_mapSet_eq (loadedWallets env derive) []
      (by simpa using loadedWallets_id_nodup env derive)
  simpa using h

theorem head?_filter_eq_find? (p : Wallet → Bool) :
    ∀ l : List Wallet, (l.filter p).head? = l.find? p := by
  intro l
  induction l with
  | nil => rfl
  | cons x xs ih =>
    cases hx : p x <;> simp [List.filter_cons, List.find?, hx, ih]

theorem restoreLast_false_unchanged {st : ManagerState}
    (h : (restoreLastActiveWallet st).2 = false) :
    (restoreLastActiveWallet st).1 = st := by
  unfold restoreLastActiveWallet at h ⊢
  split at h
  next lid heq =>
    split at h
    next hc =>
      split at h
      next w hg => simp at h
      next hg => simp [heq, hc, hg]
    next hc => simp [heq, hc]
  next heq => simp [heq]

theorem initGoatTools_mgr {τ : Type} (build : String → Option τ) (force : Bool)
    (w : World τ) : (initGoatTools build force w).1.mgr = w.mgr := by
  unfold initGoatTools
  split
  · rfl
  · split
    · rfl
    · split <;> rfl

theorem roleAndProvider_mem_byRole {st : ManagerState} {role provider : String} {e : Wallet}
    (h : getWalletByRoleAndProvider st role provider = some e) :
    e ∈ getWalletsByRole st role := by
  have hmem := List.mem_of_find?_eq_some h
  have hp := List.find?_some h
  simp only [Bool.and_eq_true, beq_iff_eq] at hp
  exact List.mem_filter.mpr ⟨hmem, by simp [hp.1]⟩

theorem roleAndProvider_props {st : ManagerState} {role provider : String} {e : Wallet}
    (h : getWalletByRoleAndProvider st role provider = some e) :
    e ∈ st.wallets ∧ e.role = role ∧ e.provider = provider := by
  have hmem := List.mem_of_find?_eq_some h
  have hp := List.find?_some h
  simp only [Bool.and_eq_true, beq_iff_eq] at hp
  exact ⟨hmem, hp.1, hp.2⟩

theorem switchWallet_true_current {st st2 : ManagerState} {id : String}
    (h : switchWallet st id = (st2, true)) :
    ∃ w, mapGet st.wallets id = some w ∧
      st2 = { st with currentWallet := some w, lastActiveWalletId := some id } := by
  unfold switchWallet at h
  cases hg : mapGet st.wallets id with
  | none =>
    rw [hg] at h
    simp at h
  | some v =>
    rw [hg] at h
    refine ⟨v, rfl, ?_⟩
    have := (Prod.mk.injEq _ _ _ _).mp h
    exact this.1.symm

theorem initGoatTools_forced_count {τ : Type} (build : String → Option τ)
    (w : World τ) (cw : Wallet) (hcw : getCurrentWallet w.mgr = some cw) :
    (initGoatTools build true w).2.2 = 1 := by
  unfold initGoatTools
  rw [hcw]
  simp only [Bool.not_true, Bool.false_and]
  cases build cw.privateKey <;> simp

/-- C10: invoking the tool-set initialization while no wallet is active does
not merely fail: it returns false and resets the binding, setting both the
bound tool set and the bound wallet id to null — even if a tool set was
previously bound to some identity — without invoking the external
collaborator. -/
theorem initGoatTools_no_wallet_resets {τ : Type} (build : String → Option τ)
    (force : Bool) (w : World τ) (h : getCurrentWallet w.mgr = none) :
    initGoatTools build force w = ({ w with gs := ⟨none, none⟩ }, false, 0) := by
  unfold initGoatTools
  rw [h]

theorem initGoatTools_no_wallet_resets_witness :
    initGoatTools (fun _ => some 0) true
        ⟨⟨[], none, none⟩, ⟨some 7, some "catmm_seller"⟩⟩ =
      (⟨⟨[], none, none⟩, ⟨none, none⟩⟩, false, 0) :=
  initGoatTools_no_wallet_resets (fun _ => some 0) true
    ⟨⟨[], none, none⟩, ⟨some 7, some "catmm_seller"⟩⟩ rfl

/-- C2: with `cw` the active identity, a live bound tool set whose bound id
equals `cw.id` and no force flag makes the initialization a no-op returning
true without invoking the external collaborator; in every other case the
collaborator is invoked exactly once on `cw`'s secret, a failed construction
clears both bound fields and returns false, and the wallet-manager (registry
and selector) state is left intact throughout. -/
theorem initGoatTools_sync {τ : Type} (build : String → Option τ) (force : Bool)
    (w : World τ) (cw : Wallet) (hcw : getCurrentWallet w.mgr = some cw) :
    ((force = false ∧ w.gs.goatTools.isSome = true ∧
        w.gs.goatToolsLastWalletId = some cw.id) →
      initGoatTools build force w = (w, true, 0)) ∧
    (¬ (force = false ∧ w.gs.goatTools.isSome = true ∧
        w.gs.goatToolsLastWalletId = some cw.id) →
      (initGoatTools build force w).2.2 = 1 ∧
      (build cw.privateKey = none →
        initGoatTools build force w = ({ w with gs := ⟨none, none⟩ }, false, 1)) ∧
      (∀ t, build cw.privateKey = some t →
        initGoatTools build force w = ({ w with gs := ⟨some t, some cw.id⟩ }, true, 1))) ∧
    (initGoatTools build force w).1.mgr = w.mgr := by
  have hg : ((!force && w.gs.goatTools.isSome &&
      (w.gs.goatToolsLastWalletId == some cw.id)) = true) ↔
      (force = false ∧ w.gs.goatTools.isSome = true ∧
        w.gs.goatToolsLastWalletId = some cw.id) := by
    simp [Bool.and_eq_true, Bool.not_eq_true', and_assoc]
  have hsome : initGoatTools build force w =
      if (!force && w.gs.goatTools.isSome && (w.gs.goatToolsLastWalletId == some cw.id))
      then (w, true, 0)
      else match build cw.privateKey with
        | some tools => ({ w with gs := ⟨some tools, some cw.id⟩ }, true, 1)
        | none => ({ w with gs := ⟨none, none⟩ }, false, 1) := by
    unfold initGoatTools
    rw [hcw]
  refine ⟨?_, ?_, initGoatTools_mgr build force w⟩
  · intro hyes
    rw [hsome, if_pos (hg.mpr hyes)]
  · intro hnot
    cases hb : (!force && w.gs.goatTools.isSome &&
        (w.gs.goatToolsLastWalletId == some cw.id)) with
    | true => exact absurd (hg.mp hb) hnot
    | false =>
      have hred : initGoatTools build force w =
          (match build cw.privateKey with
           | some t => ({ w with gs := ⟨some t, some cw.id⟩ }, true, 1)
           | none => ({ w with gs := ⟨none, none⟩ }, false, 1)) := by
        rw [hsome, if_neg (by rw [hb]; exact Bool.false_ne_true)]
      refine ⟨?_, ?_, ?_⟩
      · rw [hred]; cases build cw.privateKey <;> rfl
      · intro hfail; rw [hred, hfail]
      · intro t ht; rw [hred, ht]

/-- A world whose synchronizer is already bound to the sample wallet. -/
def sampleWorldBound : World Nat :=
  ⟨⟨[sampleWallet], some sampleWallet, some "cm_seller"⟩, ⟨some 5, some "cm_seller"⟩⟩

theorem initGoatTools_sync_witness :
    initGoatTools (fun _ => some 5) false sampleWorldBound = (sampleWorldBound, true, 0) :=
  ((initGoatTools_sync (fun _ => some 5) false sampleWorldBound sampleWallet rfl).1
    ⟨rfl, rfl, rfl⟩)

/-- C4: switching to a role with zero matching identities returns the
structured not-found payload listing all available wallets, leaves the whole
world — in particular `currentWallet` and `lastActiveWalletId` — unchanged,
and never invokes the tool-construction collaborator. -/
theorem switchToRole_role_empty {τ : Type} (build : String → Option τ)
    (role provider : String) (w : World τ)
    (hr : getWalletsByRole w.mgr role = []) :
    switchToRole build role provider w = (w, .notFound (getAllWallets w.mgr), 0) := by
  have hnone : ∀ p2, getWalletByRoleAndProvider w.mgr role p2 = none := by
    intro p2
    cases hq : getWalletByRoleAndProvider w.mgr role p2 with
    | none => rfl
    | some e =>
      have hmem := roleAndProvider_mem_byRole hq
      rw [hr] at hmem
      cases hmem
  unfold switchToRole
  have htgt : switchTarget w.mgr role provider = none := by
    unfold switchTarget exactProviderLookup
    simp [hnone, hr]
  rw [htgt]

theorem switchToRole_role_empty_witness :
    switchToRole (fun _ => some 3) "seller" "metamask"
        (⟨⟨[], none, none⟩, ⟨none, none⟩⟩ : World Nat) =
      (⟨⟨[], none, none⟩, ⟨none, none⟩⟩, .notFound [], 0) :=
  switchToRole_role_empty (fun _ => some 3) "seller" "metamask"
    ⟨⟨[], none, none⟩, ⟨none, none⟩⟩ rfl

/-- C3: whenever the switch-to-role flow succeeds (returns an `ok` payload),
the dependent tool set was rebuilt exactly once — never zero times — by the
forced reinitialization inside the handler; the count is one for every prior
synchronizer state, including a stale binding that already records the
selected wallet's id. -/
theorem switchToRole_one_rebuild {τ : Type} (build : String → Option τ)
    (role provider : String) (w : World τ) (t : Wallet) (honored initOk : Bool)
    (n : Nat) (w2 : World τ)
    (h : switchToRole build role provider w = (w2, .ok t honored initOk, n)) :
    n = 1 := by
  unfold switchToRole at h
  cases htgt : switchTarget w.mgr role provider with
  | none =>
    rw [htgt] at h
    simp at h
  | some t2 =>
    rw [htgt] at h
    simp only [] at h
    rcases hsw : switchWallet w.mgr t2.id with ⟨st2, b⟩
    cases b with
    | false =>
      rw [hsw] at h
      simp at h
    | true =>
      rw [hsw] at h
      obtain ⟨v, hv, hst2⟩ := switchWallet_true_current hsw
      have hcur : getCurrentWallet ({ mgr := st2, gs := w.gs } : World τ).mgr = some v := by
        rw [hst2]; rfl
      have hcount := initGoatTools_forced_count build ⟨st2, w.gs⟩ v hcur
      have hn : n = (initGoatTools build true ({ mgr := st2, gs := w.gs } : World τ)).2.2 := by
        have := (Prod.mk.injEq _ _ _ _).mp h
        have h2 := (Prod.mk.injEq _ _ _ _).mp this.2
        exact h2.2.symm
      rw [hn, hcount]

theorem switchToRole_one_rebuild_witness :
    switchToRole (fun _ => some 9) "seller" "crossmint" sampleWorldBound =
      (⟨sampleWorldBound.mgr, ⟨some 9, some "cm_seller"⟩⟩, .ok sampleWallet true true, 1) ∧
    (1 : Nat) = 1 :=
  ⟨by decide,
    switchToRole_one_rebuild (fun _ => some 9) "seller" "crossmint" sampleWorldBound
      sampleWallet true true 1
      ⟨sampleWorldBound.mgr, ⟨some 9, some "cm_seller"⟩⟩ (by decide)⟩

theorem exactProviderLookup_eq {st : ManagerState} {role provider : String}
    (hp : provider ∈ providerChoices) :
    exactProviderLookup st role provider = getWalletByRoleAndProvider st role provider := by
  unfold providerChoices at hp
  simp only [List.mem_cons, List.not_mem_nil, or_false] at hp
  rcases hp with h | h | h <;> subst h <;> simp [exactProviderLookup]

/-- C1: when the registry holds at least one wallet with the requested role
(ids being unique, as in every registry the program builds) and the requested
provider is one of the schema's choices, the switch-to-role flow succeeds: it
selects the exact (role, provider) match when one exists and otherwise the
first wallet of the role in load order, commits the selection to both
`currentWallet` and `lastActiveWalletId`, so that `getCurrentWallet`
afterwards has the requested role (and the requested provider whenever an
exact match exists), and the success payload reports whether the exact
requested provider was honored. -/
theorem switchToRole_success {τ : Type} (build : String → Option τ)
    (role provider : String) (w : World τ)
    (hnd : IdNodup w.mgr.wallets)
    (hp : provider ∈ providerChoices)
    (hr : getWalletsByRole w.mgr role ≠ []) :
    ∃ t initOk n w2,
      switchToRole build role provider w = (w2, .ok t (t.provider == provider) initOk, n) ∧
      getCurrentWallet w2.mgr = some t ∧
      t.role = role ∧
      w2.mgr.lastActiveWalletId = some t.id ∧
      (∀ e, getWalletByRoleAndProvider w.mgr role provider = some e →
        t = e ∧ t.provider = provider) ∧
      (getWalletByRoleAndProvider w.mgr role provider = none →
        some t = (getWalletsByRole w.mgr role).head?) := by
  have hex := @exactProviderLookup_eq w.mgr role provider hp
  obtain ⟨t, htgt, hmem, hrole, hexact, hfall⟩ :
      ∃ t, switchTarget w.mgr role provider = some t ∧ t ∈ w.mgr.wallets ∧
        t.role = role ∧
        (∀ e, getWalletByRoleAndProvider w.mgr role provider = some e →
          t = e ∧ t.provider = provider) ∧
        (getWalletByRoleAndProvider w.mgr role provider = none →
          some t = (getWalletsByRole w.mgr role).head?) := by
    cases hq : getWalletByRoleAndProvider w.mgr role provider with
    | some e =>
      obtain ⟨hm, hrole2, hprov⟩ := roleAndProvider_props hq
      refine ⟨e, ?_, hm, hrole2, ?_, ?_⟩
      · unfold switchTarget
        rw [hex, hq]
      · intro e2 hq2
        exact ⟨Option.some.inj hq2, hprov⟩
      · intro hq2
        cases hq2
    | none =>
      cases hl : getWalletsByRole w.mgr role with
      | nil => exact absurd hl hr
      | cons t ts =>
        have hmem2 : t ∈ getWalletsByRole w.mgr role := by
          rw [hl]
          exact List.mem_cons_self t ts
        have hm := List.mem_of_mem_filter hmem2
        have hrole2 : t.role = role := by
          have := List.of_mem_filter hmem2
          simpa using this
        refine ⟨t, ?_, hm, hrole2, ?_, ?_⟩
        · unfold switchTarget
          rw [hex, hq, hl]
          rfl
        · intro e2 he2
          cases he2
        · intro _
          rfl
  have hget : mapGet w.mgr.wallets t.id = some t := mapGet_of_mem hnd hmem
  have hm1 : switchWallet w.mgr t.id =
      ({ w.mgr with currentWallet := some t, lastActiveWalletId := some t.id }, true) := by
    unfold switchWallet
    rw [hget]
  have hred : switchToRole build role provider w =
      ((initGoatTools build true
          ⟨{ w.mgr with currentWallet := some t, lastActiveWalletId := some t.id }, w.gs⟩).1,
        .ok t (t.provider == provider)
          (initGoatTools build true
            ⟨{ w.mgr with currentWallet := some t, lastActiveWalletId := some t.id }, w.gs⟩).2.1,
        (initGoatTools build true
          ⟨{ w.mgr with currentWallet := some t, lastActiveWalletId := some t.id }, w.gs⟩).2.2) := by
    unfold switchToRole
    rw [htgt]
    simp only []
    rw [hm1]
  have hmgr := initGoatTools_mgr build true
    (⟨{ w.mgr with currentWallet := some t, lastActiveWalletId := some t.id }, w.gs⟩ : World τ)
  refine ⟨t, _, _, _, hred, ?_, hrole, ?_, hexact, hfall⟩
  · rw [getCurrentWallet, hmgr]
  · rw [hmgr]

/-- A world holding just the sample Crossmint seller, with no bound tools. -/
def sampleWorld : World Nat :=
  ⟨⟨[sampleWallet], some sampleWallet, some "cm_seller"⟩, ⟨none, none⟩⟩

theorem switchToRole_success_witness :
    ∃ t initOk n w2,
      switchToRole (fun _ => some 4) "seller" "crossmint" sampleWorld =
        (w2, .ok t (t.provider == "crossmint") initOk, n) ∧
      getCurrentWallet w2.mgr = some t ∧
      t.role = "seller" ∧
      w2.mgr.lastActiveWalletId = some t.id ∧
      (∀ e, getWalletByRoleAndProvider sampleWorld.mgr "seller" "crossmint" = some e →
        t = e ∧ t.provider = "crossmint") ∧
      (getWalletByRoleAndProvider sampleWorld.mgr "seller" "crossmint" = none →
        some t = (getWalletsByRole sampleWorld.mgr "seller").head?) :=
  switchToRole_success (fun _ => some 4) "seller" "crossmint" sampleWorld
    (by unfold IdNodup; decide) (by decide) (by decide)

theorem filterMap_loadSlot_length (env derive : String → Option String)
    (hderive : ∀ pk, isUsableKey pk = true → (derive pk).isSome = true) :
    ∀ cs : List SlotConfig,
      (cs.filterMap (loadSlot env derive)).length =
        (cs.filter (fun c => match env c.env with
          | some pk => isUsableKey pk
          | none => false)).length := by
  intro cs
  induction cs with
  | nil => rfl
  | cons c cs ih =>
    cases henv : env c.env with
    | none =>
      have hslot : loadSlot env derive c = none := by
        unfold loadSlot
        rw [henv]
      rw [List.filterMap_cons_none hslot, List.filter_cons]
      simp [henv, ih]
    | some pk =>
      cases hk : isUsableKey pk with
      | false =>
        have hslot : loadSlot env derive c = none := by
          unfold loadSlot
          rw [henv]
          simp only []
          rw [if_neg (by rw [hk]; exact Bool.false_ne_true)]
        rw [List.filterMap_cons_none hslot, List.filter_cons]
        simp [henv, hk, ih]
      | true =>
        obtain ⟨addr, haddr⟩ := Option.isSome_iff_exists.mp (hderive pk hk)
        have hslot : loadSlot env derive c = some
            { id := c.id, name := c.name, role := c.role, provider := c.provider,
              privateKey := pk, publicAddress := addr, isActive := false,
              description := c.name ++ " wallet" } := by
          unfold loadSlot
          rw [henv]
          simp only []
          rw [if_pos hk, haddr]
        rw [List.filterMap_cons_some hslot, List.filter_cons]
        simp [henv, hk, ih]

/-- C5: for every configuration, provided the external address-derivation
collaborator (`privateKeyToAccount`) succeeds on every secret that passes the
fixed validation rule, the number of identities `getAllWallets` returns after
load equals the number of configuration slots whose secret passes the rule (a
`0x`-prefixed 64-hex-character string, non-empty and distinct from the
placeholder `0x`); slots failing validation are skipped and the load still
produces a state. -/
theorem listAll_counts_valid_slots (env derive : String → Option String)
    (hderive : ∀ pk, isUsableKey pk = true → (derive pk).isSome = true) :
    (getAllWallets (loadWallets env derive)).length =
      (walletConfigs.filter (fun c => match env c.env with
        | some pk => isUsableKey pk
        | none => false)).length := by
  show (loadWallets env derive).wallets.length = _
  rw [loadWallets_wallets_eq]
  exact filterMap_loadSlot_length env derive hderive walletConfigs

theorem listAll_counts_valid_slots_witness :
    (getAllWallets (loadWallets sampleEnv sampleDerive)).length =
      (walletConfigs.filter (fun c => match sampleEnv c.env with
        | some pk => isUsableKey pk
        | none => false)).length :=
  listAll_counts_valid_slots sampleEnv sampleDerive (fun _ _ => rfl)

/-- C6: the startup default selection: a loaded wallet with the priority id
`catmm_seller` becomes current; otherwise, for a non-empty load, the first
loaded wallet whose role is `seller` in load order or, failing that, the first
loaded wallet; an empty load leaves both session fields unset; and in every
non-empty case `lastActiveWalletId` equals the selected wallet's id. -/
theorem default_selection_policy (env derive : String → Option String) :
    (∀ w, w ∈ loadedWallets env derive → w.id = "catmm_seller" →
      getCurrentWallet (loadWallets env derive) = some w) ∧
    ((loadedWallets env derive).find? (fun x => x.id == "catmm_seller") = none →
      getCurrentWallet (loadWallets env derive) =
        ((loadedWallets env derive).find? (fun x => x.role == "seller")).orElse
          (fun _ => (loadedWallets env derive).head?)) ∧
    (loadedWallets env derive = [] →
      getCurrentWallet (loadWallets env derive) = none ∧
      (loadWallets env derive).lastActiveWalletId = none) ∧
    (loadedWallets env derive ≠ [] →
      ∃ w, getCurrentWallet (loadWallets env derive) = some w ∧
        (loadWallets env derive).lastActiveWalletId = some w.id) := by
  have hnd : IdNodup (loadedWallets env derive) := loadedWallets_id_nodup env derive
  refine ⟨?_, ?_, ?_, ?_⟩
  · intro w hm hid
    have hfind : (loadedWallets env derive).find? (fun x => x.id == "catmm_seller") = some w := by
      have h2 := mapGet_of_mem hnd hm
      rw [hid] at h2
      exact h2
    show defaultSelection (loadedWallets env derive) = some w
    unfold defaultSelection
    rw [hfind]
  · intro hnone
    show defaultSelection (loadedWallets env derive) = _
    unfold defaultSelection
    rw [hnone, head?_filter_eq_find?]
  · intro hnil
    constructor
    · show defaultSelection (loadedWallets env derive) = none
      rw [hnil]
      rfl
    · show (defaultSelection (loadedWallets env derive)).map Wallet.id = none
      rw [hnil]
      rfl
  · intro hne
    cases hsel : defaultSelection (loadedWallets env derive) with
    | some w =>
      refine ⟨w, hsel, ?_⟩
      show (defaultSelection (loadedWallets env derive)).map Wallet.id = some w.id
      rw [hsel]
      rfl
    | none =>
      exfalso
      unfold defaultSelection at hsel
      cases hf : (loadedWallets env derive).find? (fun x => x.id == "catmm_seller") with
      | some v =>
        rw [hf] at hsel
        cases hsel
      | none =>
        rw [hf] at hsel
        cases hl : loadedWallets env derive with
        | nil => exact hne hl
        | cons a as =>
          rw [hl] at hsel
          cases hh : ((a :: as).filter (fun x => x.role == "seller")).head? with
          | some b =>
            rw [hh] at hsel
            cases hsel
          | none =>
            rw [hh] at hsel
            simp [Option.orElse] at hsel

theorem default_selection_policy_witness :
    (∀ w, w ∈ loadedWallets sampleEnv sampleDerive → w.id = "catmm_seller" →
      getCurrentWallet (loadWallets sampleEnv sampleDerive) = some w) ∧
    ((loadedWallets sampleEnv sampleDerive).find? (fun x => x.id == "catmm_seller") = none →
      getCurrentWallet (loadWallets sampleEnv sampleDerive) =
        ((loadedWallets sampleEnv sampleDerive).find? (fun x => x.role == "seller")).orElse
          (fun _ => (loadedWallets sampleEnv sampleDerive).head?)) ∧
    (loadedWallets sampleEnv sampleDerive = [] →
      getCurrentWallet (loadWallets sampleEnv sampleDerive) = none ∧
      (loadWallets sampleEnv sampleDerive).lastActiveWalletId = none) ∧
    (loadedWallets sampleEnv sampleDerive ≠ [] →
      ∃ w, getCurrentWallet (loadWallets sampleEnv sampleDerive) = some w ∧
        (loadWallets sampleEnv sampleDerive).lastActiveWalletId = some w.id) :=
  default_selection_policy sampleEnv sampleDerive

/-- C7 counterexample: in the reachable startup state under `sampleEnv` a
wallet is already active, yet `restoreLastActiveWallet` returns true — the
source never checks whether a wallet is current — contradicting the claim
that the restore succeeds exactly when the active identity is unset (and the
claimed return of false whenever one is set). -/
theorem restoreLast_active_counterexample :
    (getCurrentWallet sampleState).isSome = true ∧
    (restoreLastActiveWallet sampleState).2 = true := by
  constructor
  · decide
  · decide

/-- C7 amended: `restoreLastActiveWallet` returns true and points
`currentWallet` at the wallet `lastActiveWalletId` resolves to exactly when
`lastActiveWalletId` is set (to a non-empty id) and resolves in the registry —
regardless of whether an active identity is already set; in every other case
it returns false and changes nothing. -/
theorem restoreLast_spec (st : ManagerState) :
    ((restoreLastActiveWallet st).2 = true ↔
      ∃ lid w, st.lastActiveWalletId = some lid ∧ lid ≠ "" ∧
        mapGet st.wallets lid = some w) ∧
    (∀ lid w, st.lastActiveWalletId = some lid → lid ≠ "" →
      mapGet st.wallets lid = some w →
      restoreLastActiveWallet st = ({ st with currentWallet := some w }, true)) ∧
    ((restoreLastActiveWallet st).2 = false → (restoreLastActiveWallet st).1 = st) := by
  have hpos : ∀ lid w, st.lastActiveWalletId = some lid → lid ≠ "" →
      mapGet st.wallets lid = some w →
      restoreLastActiveWallet st = ({ st with currentWallet := some w }, true) := by
    intro lid w hl hne hg
    unfold restoreLastActiveWallet
    rw [hl]
    simp only []
    have hcond : (lid != "" && mapHas st.wallets lid) = true := by
      simp [hne, mapHas, hg]
    rw [if_pos hcond, hg]
  refine ⟨⟨?_, ?_⟩, hpos, fun hf => restoreLast_false_unchanged hf⟩
  · intro htrue
    unfold restoreLastActiveWallet at htrue
    cases hl : st.lastActiveWalletId with
    | none =>
      rw [hl] at htrue
      simp at htrue
    | some lid =>
      rw [hl] at htrue
      simp only [] at htrue
      by_cases hc : (lid != "" && mapHas st.wallets lid) = true
      · rw [if_pos hc] at htrue
        cases hg : mapGet st.wallets lid with
        | none =>
          rw [hg] at htrue
          simp at htrue
        | some w =>
          refine ⟨lid, w, rfl, ?_, hg⟩
          have h1 := (Bool.and_eq_true _ _).mp hc
          simpa [bne_iff_ne] using h1.1
      · rw [if_neg hc] at htrue
        simp at htrue
  · rintro ⟨lid, w, hl, hne, hg⟩
    rw [hpos lid w hl hne hg]

theorem restoreLast_spec_witness :
    restoreLastActiveWallet sampleState =
      ({ sampleState with currentWallet := some sampleWallet }, true) :=
  (restoreLast_spec sampleState).2.1 "cm_seller" sampleWallet
    (by decide) (by decide) (by decide)

theorem restoreLast_true_current {st : ManagerState}
    (h : (restoreLastActiveWallet st).2 = true) :
    ∃ w, getCurrentWallet (restoreLastActiveWallet st).1 = some w := by
  unfold restoreLastActiveWallet at h ⊢
  split at h
  next lid heq =>
    split at h
    next hc =>
      split at h
      next w hg => exact ⟨w, by simp [heq, hc, hg, getCurrentWallet]⟩
      next hg => simp at h
    next hc => simp at h
  next heq => simp at h

theorem requireActiveWallet_fst (st : ManagerState) :
    (requireActiveWallet st).1 = restoreIfNeeded st := by
  unfold requireActiveWallet
  cases hg : getCurrentWallet (restoreIfNeeded st) with
  | none => rfl
  | some cw => rfl

/-- C8: the dispatcher operation prelude: with a wallet already active the
operation proceeds with it immediately and changes nothing; with none active
it first attempts `restoreLastActiveWallet`; the structured no-active-wallet
result (an ordinary return value instructing the caller to switch, not a
fault) is produced exactly when no wallet is active and the restoration
failed, and in that case the state is left unchanged. -/
theorem dispatcher_guard_no_active (st : ManagerState) :
    (∀ cw, getCurrentWallet st = some cw → requireActiveWallet st = (st, .proceed cw)) ∧
    (getCurrentWallet st = none →
      (requireActiveWallet st).1 = (restoreLastActiveWallet st).1) ∧
    ((requireActiveWallet st).2 = .noActiveWallet ↔
      getCurrentWallet st = none ∧ (restoreLastActiveWallet st).2 = false) ∧
    ((requireActiveWallet st).2 = .noActiveWallet → (requireActiveWallet st).1 = st) := by
  have hactive : ∀ cw, getCurrentWallet st = some cw →
      requireActiveWallet st = (st, .proceed cw) := by
    intro cw hcw
    have h1 : restoreIfNeeded st = st := by
      unfold restoreIfNeeded
      rw [hcw]
      rfl
    unfold requireActiveWallet
    rw [h1, hcw]
  have hnone1 : getCurrentWallet st = none →
      restoreIfNeeded st = (restoreLastActiveWallet st).1 := by
    intro hcw
    unfold restoreIfNeeded
    rw [hcw]
    rfl
  have hiff : (requireActiveWallet st).2 = .noActiveWallet ↔
      getCurrentWallet st = none ∧ (restoreLastActiveWallet st).2 = false := by
    constructor
    · intro hga
      cases hcw : getCurrentWallet st with
      | some cw =>
        rw [hactive cw hcw] at hga
        simp at hga
      | none =>
        refine ⟨rfl, ?_⟩
        cases hr2 : (restoreLastActiveWallet st).2 with
        | true =>
          obtain ⟨w, hw⟩ := restoreLast_true_current hr2
          have hw2 : getCurrentWallet (restoreIfNeeded st) = some w := by
            rw [hnone1 hcw]
            exact hw
          unfold requireActiveWallet at hga
          rw [hw2] at hga
          simp at hga
        | false => rfl
    · rintro ⟨hcw, hr2⟩
      have hst : restoreIfNeeded st = st := by
        rw [hnone1 hcw]
        exact restoreLast_false_unchanged hr2
      unfold requireActiveWallet
      rw [hst, hcw]
  refine ⟨hactive, fun hcw => by rw [requireActiveWallet_fst, hnone1 hcw], hiff, ?_⟩
  · intro hga
    obtain ⟨hcw, hr2⟩ := hiff.mp hga
    rw [requireActiveWallet_fst, hnone1 hcw]
    exact restoreLast_false_unchanged hr2

theorem dispatcher_guard_no_active_witness :
    (∀ cw, getCurrentWallet (⟨[], none, none⟩ : ManagerState) = some cw →
      requireActiveWallet ⟨[], none, none⟩ = (⟨[], none, none⟩, .proceed cw)) ∧
    (getCurrentWallet (⟨[], none, none⟩ : ManagerState) = none →
      (requireActiveWallet ⟨[], none, none⟩).1 =
        (restoreLastActiveWallet ⟨[], none, none⟩).1) ∧
    ((requireActiveWallet (⟨[], none, none⟩ : ManagerState)).2 = .noActiveWallet ↔
      getCurrentWallet (⟨[], none, none⟩ : ManagerState) = none ∧
        (restoreLastActiveWallet ⟨[], none, none⟩).2 = false) ∧
    ((requireActiveWallet (⟨[], none, none⟩ : ManagerState)).2 = .noActiveWallet →
      (requireActiveWallet ⟨[], none, none⟩).1 = ⟨[], none, none⟩) :=
  dispatcher_guard_no_active ⟨[], none, none⟩

/-- Invariant tying `currentWallet` to the registry and to
`lastActiveWalletId`; see `reachable_current_invariant`. -/
def SessionInv (st : ManagerState) : Prop :=
  ∀ w, st.currentWallet = some w →
    mapGet st.wallets w.id = some w ∧ st.lastActiveWalletId = some w.id

theorem defaultSelection_mem {l : List Wallet} {w : Wallet}
    (h : defaultSelection l = some w) : w ∈ l := by
  unfold defaultSelection at h
  cases hf : l.find? (fun x => x.id == "catmm_seller") with
  | some v =>
    rw [hf] at h
    cases h
    exact List.mem_of_find?_eq_some hf
  | none =>
    rw [hf] at h
    simp only [] at h
    cases hh : (l.filter (fun x => x.role == "seller")).head? with
    | some b =>
      rw [hh] at h
      cases h
      exact List.mem_of_mem_filter (List.mem_of_mem_head? (Option.mem_def.mpr hh))
    | none =>
      rw [hh] at h
      have hh2 : l.head? = some w := by
        simpa [Option.orElse] using h
      exact List.mem_of_mem_head? (Option.mem_def.mpr hh2)

theorem reachable_sessionInv {st : ManagerState} (h : Reachable st) : SessionInv st := by
  induction h with
  | load env derive =>
    intro w hw
    have hsel : defaultSelection (loadedWallets env derive) = some w := hw
    have hmem := defaultSelection_mem hsel
    have hnd : IdNodup (loadedWallets env derive) := loadedWallets_id_nodup env derive
    constructor
    · rw [show (loadWallets env derive).wallets = loadedWallets env derive from
        loadWallets_wallets_eq env derive]
      exact mapGet_of_mem hnd hmem
    · show (defaultSelection (loadedWallets env derive)).map Wallet.id = some w.id
      rw [hsel]
      rfl
  | switch st id hst ih =>
    cases hg : mapGet st.wallets id with
    | none =>
      have heq : switchWallet st id = (st, false) := by
        unfold switchWallet
        rw [hg]
      rw [heq]
      exact ih
    | some v =>
      have hsw : switchWallet st id =
          ({ st with currentWallet := some v, lastActiveWalletId := some id }, true) := by
        unfold switchWallet
        rw [hg]
      rw [hsw]
      intro w hw
      have hvw : v = w := Option.some.inj hw
      subst hvw
      constructor
      · show mapGet st.wallets v.id = some v
        rw [mapGet_id hg]
        exact hg
      · show some id = some v.id
        rw [mapGet_id hg]
  | restore st hst ih =>
    cases hl : st.lastActiveWalletId with
    | none =>
      have hr : restoreLastActiveWallet st = (st, false) := by
        unfold restoreLastActiveWallet
        rw [hl]
      rw [hr]
      exact ih
    | some lid =>
      by_cases hc : (lid != "" && mapHas st.wallets lid) = true
      · cases hg : mapGet st.wallets lid with
        | none =>
          have hr : restoreLastActiveWallet st = (st, false) := by
            unfold restoreLastActiveWallet
            rw [hl]
            simp only []
            rw [if_pos hc, hg]
          rw [hr]
          exact ih
        | some v =>
          have hr : restoreLastActiveWallet st =
              ({ st with currentWallet := some v }, true) := by
            unfold restoreLastActiveWallet
            rw [hl]
            simp only []
            rw [if_pos hc, hg]
          rw [hr]
          intro w hw
          have hvw : v = w := Option.some.inj hw
          subst hvw
          constructor
          · show mapGet st.wallets v.id = some v
            rw [mapGet_id hg]
            exact hg
          · show st.lastActiveWalletId = some v.id
            rw [hl, mapGet_id hg]
      · have hr : restoreLastActiveWallet st = (st, false) := by
          unfold restoreLastActiveWallet
          rw [hl]
          simp only []
          rw [if_neg hc]
        rw [hr]
        exact ih

/-- C9: in every reachable wallet-manager state, a non-null current wallet is
the registry entry under its own id and `lastActiveWalletId` equals its id;
hence `getCurrentWallet` never returns an identity that fails to resolve in
the registry, and `restoreLastActiveWallet` cannot change the state — in
particular which wallet is current — while a wallet is active. -/
theorem reachable_current_invariant (st : ManagerState) (h : Reachable st) :
    (∀ w, getCurrentWallet st = some w →
      mapGet st.wallets w.id = some w ∧ st.lastActiveWalletId = some w.id) ∧
    (∀ w, getCurrentWallet st = some w → (restoreLastActiveWallet st).1 = st) := by
  have hinv := reachable_sessionInv h
  refine ⟨hinv, ?_⟩
  intro w hw
  obtain ⟨hget, hlast⟩ := hinv w hw
  by_cases hne : (w.id != "") = true
  · have hcond : (w.id != "" && mapHas st.wallets w.id) = true := by
      rw [hne, Bool.true_and, mapHas, hget]
      rfl
    have hr : restoreLastActiveWallet st = ({ st with currentWallet := some w }, true) := by
      unfold restoreLastActiveWallet
      rw [hlast]
      simp only []
      rw [if_pos hcond, hget]
    rw [hr]
    show ({ st with currentWallet := some w } : ManagerState) = st
    have hcw : st.currentWallet = some w := hw
    rw [← hcw]
  · have hcf : (w.id != "" && mapHas st.wallets w.id) = false := by
      have h2 : (w.id != "") = false := (Bool.not_eq_true _) ▸ hne
      rw [h2, Bool.false_and]
    have hr2 : (restoreLastActiveWallet st).2 = false := by
      unfold restoreLastActiveWallet
      rw [hlast]
      simp only []
      rw [if_neg (by rw [hcf]; exact Bool.false_ne_true)]
    exact restoreLast_false_unchanged hr2

theorem reachable_current_invariant_witness :
    (∀ w, getCurrentWallet sampleState = some w →
      mapGet sampleState.wallets w.id = some w ∧
      sampleState.lastActiveWalletId = some w.id) ∧
    (∀ w, getCurrentWallet sampleState = some w →
      (restoreLastActiveWallet sampleState).1 = sampleState) :=
  reachable_current_invariant sampleState (Reachable.load sampleEnv sampleDerive)

end XdcGoat
